import Mathlib

/-!
Verification of the topic-modeling core of the speech-analysis app
(`src/app.py`) via a shallow embedding in Lean 4.

External NLP/ML library calls (spaCy entity tagging, gensim
`simple_preprocess` tokenization, WordNet lemmatization, the gensim
standard stopword list, the scikit-learn `CountVectorizer` analyzer and
the LDA fitting algorithm) are modelled as capability interfaces: they
appear as explicit function parameters or structure fields, so every
theorem is about the repository's own control flow and data handling
over any conforming implementation of those externals.  The logic the
repository itself authors — timestamp stripping, lowercasing, the
entity-type filter, the stopword filter and lemmatization order, the
training error handling, the top-word extraction and the topic scoring
block — is translated directly from `src/app.py`.
-/

namespace SpeechAnalysis

/-- A token produced by the spaCy pipeline: its surface text and its
named-entity type tag (empty string when the token is not part of a
recognized entity), as read from `token.text` / `token.ent_type_`. -/
structure SpacyToken where
  text : String
  entType : String
deriving DecidableEq, Repr

/-- Capability interface for the external NLP components used by
`preprocess_text` in `src/app.py`: the spaCy tagger (`nlp(text)`),
the gensim tokenizer (`simple_preprocess(text, deacc=True)`), the
WordNet lemmatizer (`lemmatizer.lemmatize`), and gensim's standard
stopword list `STOPWORDS`. -/
structure NLP where
  tag : String → List SpacyToken
  tokenize : String → List String
  lemmatize : String → String
  stopwords : List String

/-- The fixed domain-specific stopword extension list from
`src/app.py` lines 33–37. -/
def extensionStopwords : List String :=
  ["look", "lot", "going", "said", "know", "thing", "well",
   "actually", "thank", "us", "think", "just", "people", "country",
   "ve", "don", "ll"]

/-- The set `custom_stopwords = set(STOPWORDS).union({...})` from `src/app.py`. -/
def customStopwords (nlp : NLP) : List String :=
  nlp.stopwords ++ extensionStopwords

/-- The argument of `preprocess_text`: either a plain string or a list
of strings (the `isinstance(text, list)` branch). -/
inductive TextInput where
  | str (s : String)
  | list (l : List String)

/-- The join `' '.join(text)` when the input is a list, the string itself
otherwise. -/
def joinInput : TextInput → String
  | .str s => s
  | .list l => " ".intercalate l

/-- One left-to-right pass of `re.sub(r'\(\d{2}:\d{2}\)', '', text)`
over the character list: non-overlapping occurrences of `(NN:NN)` are
removed, scanning resumes after each removed match, and on a failed
match the scanner advances one character.  Each step consumes at least
one character, so a fuel equal to the list length makes the recursion
structural without changing the result. -/
def stripTSFuel : Nat → List Char → List Char
  | 0, l => l
  | fuel + 1, l =>
    match l with
    | '(' :: a :: b :: ':' :: c :: d :: ')' :: rest =>
        if a.isDigit ∧ b.isDigit ∧ c.isDigit ∧ d.isDigit then
          stripTSFuel fuel rest
        else
          '(' :: stripTSFuel fuel (a :: b :: ':' :: c :: d :: ')' :: rest)
    | ch :: rest => ch :: stripTSFuel fuel rest
    | [] => []

/-- Timestamp removal on a character list. -/
def stripTS (l : List Char) : List Char :=
  stripTSFuel l.length l

/-- Timestamp stripping lifted to `String`. -/
def stripTimestamps (s : String) : String :=
  ⟨stripTS s.data⟩

/-- Lowercasing `text.lower()` (ASCII case folding on each character). -/
def lowerStr (s : String) : String :=
  ⟨s.data.map Char.toLower⟩

/-- The entity filter of `src/app.py` line 48:
`' '.join([token.text for token in doc if token.ent_type_ not in ['PERSON', 'GPE']])`. -/
def removeEntities (nlp : NLP) (s : String) : String :=
  " ".intercalate
    (((nlp.tag s).filter
        (fun tk => !(tk.entType == "PERSON" || tk.entType == "GPE"))).map
      SpacyToken.text)

/-- The intermediate text handed to the tokenizer: input joined,
timestamps stripped, lowercased, entity-filtered
(`src/app.py` lines 39–48). -/
def midText (nlp : NLP) (input : TextInput) : String :=
  removeEntities nlp (lowerStr (stripTimestamps (joinInput input)))

/-- The final filter-then-lemmatize stage of `src/app.py` line 51:
`[lemmatizer.lemmatize(token) for token in tokens if token not in custom_stopwords]`. -/
def filterLemmatize (nlp : NLP) (tokens : List String) : List String :=
  (tokens.filter (fun t => !(customStopwords nlp).contains t)).map nlp.lemmatize

/-- The token list whose space-join is the normalized output. -/
def preprocessTokens (nlp : NLP) (input : TextInput) : List String :=
  filterLemmatize nlp (nlp.tokenize (midText nlp input))

/-- The function `preprocess_text` from `src/app.py` lines 24–54: join a list input,
strip `(NN:NN)` timestamps, lowercase, drop PERSON/GPE entity tokens,
tokenize, drop stopwords, lemmatize the survivors, and join with
single spaces. -/
def preprocess_text (nlp : NLP) (input : TextInput) : String :=
  " ".intercalate (preprocessTokens nlp input)

/-! ### Vectorizer model (scikit-learn `CountVectorizer`, external)

`analyze` stands for the library's internal analyzer (lowercasing,
`\w\w+` tokenization, its English stopword filter, and 1–2-gram
generation, per `CountVectorizer(max_df=0.95, min_df=2,
stop_words='english', ngram_range=(1, 2))`); it is kept abstract as a
structure field.  `transform` follows the documented bag-of-words
semantics: each feature column counts the occurrences of that
vocabulary term among the analyzed terms of the document; the
vocabulary built at `fit` time is frozen and never mutated by
`transform`, which we make explicit by returning the (unchanged)
vectorizer state alongside the row. -/

/-- A fitted `CountVectorizer`: its analyzer and its frozen vocabulary
(the feature names, in column order). -/
structure CountVec where
  analyze : String → List String
  vocab : List String

/-- The call `vectorizer.transform([doc])` for a single document: the resulting
vectorizer state (unchanged) and the single count row. -/
def CountVec.transform (cv : CountVec) (doc : String) : CountVec × List Nat :=
  (cv, cv.vocab.map (fun term => (cv.analyze doc).count term))

/-- Document frequency of a term among analyzed documents. -/
def docFreq (analyzed : List (List String)) (term : String) : Nat :=
  (analyzed.filter (fun d => d.contains term)).length

/-- Modelled from the spec: `CountVectorizer.fit_transform` (external
library code, §4.2 of the spec).  Builds the vocabulary from the
analyzed documents, pruning terms in fewer than 2 documents
(`min_df=2`) or in more than 95% of documents (`max_df=0.95`), and
raises a `ValueError` — here the `.error` branch — when no term
remains, as scikit-learn does for an empty vocabulary (e.g. when every
document is empty after filtering). -/
def cvFit (analyze : String → List String) (docs : List String) :
    Except String (CountVec × List (List Nat)) :=
  let analyzed := docs.map analyze
  let candidates := analyzed.flatten.dedup
  let vocab := candidates.filter
    (fun t => 2 ≤ docFreq analyzed t ∧ 20 * docFreq analyzed t ≤ 19 * docs.length)
  if vocab.isEmpty then
    .error "empty vocabulary; perhaps the documents only contain stop words"
  else
    .ok (⟨analyze, vocab⟩, analyzed.map (fun d => vocab.map (fun t => d.count t)))

/-! ### Topic model trainer (`train_topic_model`, `src/app.py` lines 58–86) -/

/-- The configuration handed to
`LatentDirichletAllocation(n_components=n_topics, random_state=42, max_iter=10)`. -/
structure LDAConfig where
  nComponents : Nat
  randomState : Nat
  maxIter : Nat
deriving DecidableEq, Repr

/-- The default topic count of `train_topic_model` (`n_topics=25`). -/
def defaultNTopics : Nat := 25

/-- The LDA configuration `train_topic_model` constructs for a given
topic count: literal seed 42 and literal iteration bound 10
(`src/app.py` line 83). -/
def ldaConfigUsed (n_topics : Nat) : LDAConfig :=
  ⟨n_topics, 42, 10⟩

/-- The diagnostic of the `except ValueError` branch
(`st.error(f"Error in vectorization: {str(e)}")`). -/
def vectorizationErrorMsg (e : String) : String :=
  "Error in vectorization: " ++ e

/-- The diagnostic of the empty-vocabulary branch. -/
def emptyVocabMsg : String :=
  "Error: Empty vocabulary. Please check your preprocessing steps."

/-- The function `train_topic_model(df, n_topics)` from `src/app.py` lines 58–86,
with the external fit calls as parameters: `fit` is the vectorizer's
`fit_transform` (which may fail with a `ValueError`), `ldaFit` is the
(seeded, hence deterministic) LDA fitting algorithm producing a model
of type `M`.  Returns the result — `none` is the `(None, None)`
sentinel — together with the diagnostic displayed via `st.error`,
if any. -/
def train_topic_model {M : Type}
    (fit : List String → Except String (CountVec × List (List Nat)))
    (ldaFit : List (List Nat) → LDAConfig → M)
    (nlp : NLP) (docs : List TextInput) (n_topics : Nat) :
    Option (CountVec × M) × Option String :=
  let preprocessed := docs.map (fun d => preprocess_text nlp d)
  match fit preprocessed with
  | .error e => (none, some (vectorizationErrorMsg e))
  | .ok (vec, dtm) =>
    if vec.vocab.length = 0 then
      (none, some emptyVocabMsg)
    else
      (some (vec, ldaFit dtm (ldaConfigUsed n_topics)), none)

/-! ### Top words per topic (`get_topic_words`, `src/app.py` lines 88–93) -/

/-- The function `numpy.argsort` on a weight vector: the indices `0 .. len-1`
sorted by ascending weight (tie order unspecified in the claim; this
model uses a stable sort). -/
def argsortAsc (v : List ℚ) : List Nat :=
  (List.range v.length).insertionSort (fun i j => v.getD i 0 ≤ v.getD j 0)

/-- The index selection `topic.argsort()[:-n_top_words - 1:-1]`: the
first `n` entries of the reversed ascending argsort, i.e. the indices
of the `n` largest weights in descending order. -/
def topIdx (v : List ℚ) (n : Nat) : List Nat :=
  ((argsortAsc v).reverse).take n

/-- The function `get_topic_words(model, feature_names, n_top_words)` from
`src/app.py`: for each topic's component vector, the feature names at
the indices of its `n` largest weights, descending. -/
def get_topic_words (components : List (List ℚ)) (feature_names : List String)
    (n_top_words : Nat) : List (List String) :=
  components.map (fun topic => (topIdx topic n_top_words).map
    (fun i => feature_names.getD i ""))

/-! ### Inference / scoring (`src/app.py` lines 185–197) -/

/-- The constant `relevance_threshold = 0.1` (`src/app.py` line 189). -/
def relevance_threshold : ℚ := mkRat 1 10

/-- The number of topics displayed, the literal `[:3]` slice bound. -/
def defaultTopK : Nat := 3

/-- The filter `[(i, strength) for i, strength in enumerate(doc_topics)
if strength > relevance_threshold]` (`src/app.py` line 190). -/
def relevantTopics (doc_topics : List ℚ) (threshold : ℚ) : List (Nat × ℚ) :=
  doc_topics.enum.filter (fun p => threshold < p.2)

/-- The label printed for a topic: `', '.join(topic_words[topic_idx][:5])`. -/
def topicLabel (topic_words : List (List String)) (i : Nat) : String :=
  ", ".intercalate ((topic_words.getD i []).take 5)

/-- The scoring block of `src/app.py` lines 189–197: filter topics by
strength, stable-sort descending by strength
(`relevant_topics.sort(key=lambda x: x[1], reverse=True)`), keep the
first `top_k`, and pair each with its five-word label.  The source
hardcodes `threshold = relevance_threshold` and `top_k = 3`; the
spec's `score` contract exposes them as parameters. -/
def scoreTopics (doc_topics : List ℚ) (topic_words : List (List String))
    (threshold : ℚ) (top_k : Nat) : List (String × ℚ) :=
  let sorted := (relevantTopics doc_topics threshold).insertionSort
    (fun a b => b.2 ≤ a.2)
  (sorted.take top_k).map (fun p => (topicLabel topic_words p.1, p.2))

/-- The end-to-end inference path of `src/app.py` lines 185–195: the
selected transcript is normalized, transformed through the frozen
vectorizer, scored by the (abstract) `lda.transform`, and the scoring
block is applied — unconditionally, with no error branch for empty
normalized text. -/
def inferTopics (cv : CountVec) (ldaTransform : List Nat → List ℚ)
    (topic_words : List (List String)) (nlp : NLP) (text : TextInput) :
    List (String × ℚ) :=
  scoreTopics (ldaTransform ((cv.transform (preprocess_text nlp text)).2))
    topic_words relevance_threshold defaultTopK

/-! ### Spec-side normalizer

`normalize_spec` is written from the words of §4.1 of the spec, to be
compared with `preprocess_text` (translated from the source): join a
list input with single spaces, strip `(NN:NN)` timestamp substrings,
lowercase the whole text, run entity recognition and drop tokens
classified PERSON or GPE keeping all others, tokenize, remove tokens
in the union of the standard stopword list and the fixed extension
list, lemmatize each remaining token, join with single spaces. -/

/-- The normalizer as the spec states it, stage by stage. -/
def normalize_spec (nlp : NLP) (input : TextInput) : String :=
  let text := match input with
    | .str s => s
    | .list l => " ".intercalate l
  let text := stripTimestamps text
  let text := lowerStr text
  let kept := (nlp.tag text).filter
    (fun tk => ¬(tk.entType = "PERSON" ∨ tk.entType = "GPE"))
  let text := " ".intercalate (kept.map SpacyToken.text)
  let tokens := nlp.tokenize text
  let tokens := tokens.filter
    (fun t => ¬(t ∈ nlp.stopwords ∨ t ∈ extensionStopwords))
  let tokens := tokens.map nlp.lemmatize
  " ".intercalate tokens

/-! ### Order instances for the sort relations -/

instance : IsTotal (Nat × ℚ) (fun a b => b.2 ≤ a.2) :=
  ⟨fun a b => le_total b.2 a.2⟩

instance : IsTrans (Nat × ℚ) (fun a b => b.2 ≤ a.2) :=
  ⟨fun _ _ _ h1 h2 => le_trans h2 h1⟩

instance (v : List ℚ) : IsTotal Nat (fun i j => v.getD i 0 ≤ v.getD j 0) :=
  ⟨fun a b => le_total (v.getD a 0) (v.getD b 0)⟩

instance (v : List ℚ) : IsTrans Nat (fun i j => v.getD i 0 ≤ v.getD j 0) :=
  ⟨fun _ _ _ h1 h2 => le_trans h1 h2⟩

/-! ### Concrete model instances

Small executable instances of the capability interfaces, used to
evaluate the claims on concrete inputs.  Each is faithful to the
behavior of the real external library on the inputs it is applied to:
spaCy's small English model tags none of the words appearing below as
PERSON or GPE; gensim's `simple_preprocess` maps a space-joined string
of short lowercase alphabetic words to its word list; the WordNet
lemmatizer maps the plural noun `things` to `thing` and fixes the
other words used; gensim's `STOPWORDS` list contains `the`, `is` and
`and` and contains neither `things` nor any other word used below. -/

/-- Whitespace word splitter on the character level (structural, so
concrete instances evaluate inside the kernel). -/
def splitWs : List Char → List Char → List String
  | [], cur => if cur.isEmpty then [] else [String.mk cur.reverse]
  | c :: cs, cur =>
    if c = ' ' then
      if cur.isEmpty then splitWs cs [] else String.mk cur.reverse :: splitWs cs []
    else
      splitWs cs (c :: cur)

/-- Words of a string, split on spaces. -/
def splitWords (s : String) : List String :=
  splitWs s.data []

/-- Concrete `NLP` instance (a faithful restriction of the real
libraries to the concrete inputs used in this file). -/
def nlpTest : NLP where
  tag s := (splitWords s).map (fun w => ⟨w, ""⟩)
  tokenize s := splitWords s
  lemmatize t := if t = "things" then "thing" else t
  stopwords := ["the", "is", "and"]

/-- A trivial `NLP` instance whose tagger and tokenizer return nothing
(matching the real libraries on the empty string). -/
def nlpEmpty : NLP where
  tag _ := []
  tokenize _ := []
  lemmatize t := t
  stopwords := []

/-- Concrete analyzer for `CountVec` instances: unigrams of the words
(a faithful restriction of the `CountVectorizer` analyzer on documents
of distinct non-stopword words and a vocabulary without bigrams). -/
def analyzeTest (s : String) : List String :=
  splitWords s

/-- A concrete fitted vectorizer with a two-term vocabulary. -/
def cvTest : CountVec where
  analyze := analyzeTest
  vocab := ["economy", "policy"]

/-! ## Theorems -/

/-- Claim C1: for every fitted model bundle and raw text, the scoring
operation keeps exactly the topics whose strength is strictly greater
than the threshold (default 0.1), sorts them in descending order of
strength, returns at most `top_k` (default 3) entries each labeled
with the first 5 words of that topic's word list, and returns an empty
sequence (not an error) when no topic's strength exceeds the
threshold. -/
theorem score_filters_sorts_caps (dt : List ℚ) (tw : List (List String)) :
    (∀ i s, ((i, s) ∈ relevantTopics dt relevance_threshold ↔
      dt[i]? = some s ∧ relevance_threshold < s))
  ∧ (scoreTopics dt tw relevance_threshold defaultTopK).Pairwise
      (fun a b => b.2 ≤ a.2)
  ∧ (scoreTopics dt tw relevance_threshold defaultTopK).length ≤ defaultTopK
  ∧ (∀ p ∈ scoreTopics dt tw relevance_threshold defaultTopK,
      ∃ i, p.1 = topicLabel tw i ∧ dt[i]? = some p.2 ∧ relevance_threshold < p.2)
  ∧ ((∀ s ∈ dt, s ≤ relevance_threshold) →
      scoreTopics dt tw relevance_threshold defaultTopK = []) := by
  have hmem : ∀ i s, ((i, s) ∈ relevantTopics dt relevance_threshold ↔
      dt[i]? = some s ∧ relevance_threshold < s) := by
    intro i s
    simp [relevantTopics, List.mem_filter, List.mk_mem_enum_iff_getElem?]
  have hsorted : (relevantTopics dt relevance_threshold).insertionSort
      (fun a b => b.2 ≤ a.2) |>.Pairwise (fun a b => b.2 ≤ a.2) :=
    List.sorted_insertionSort _ _
  refine ⟨hmem, ?_, ?_, ?_, ?_⟩
  · unfold scoreTopics
    rw [List.pairwise_map]
    exact hsorted.sublist (List.take_sublist _ _)
  · unfold scoreTopics
    simp only [List.length_map, List.length_take]
    exact Nat.min_le_left _ _
  · intro p hp
    unfold scoreTopics at hp
    rw [List.mem_map] at hp
    obtain ⟨q, hq, rfl⟩ := hp
    have hq' : q ∈ (relevantTopics dt relevance_threshold).insertionSort
        (fun a b => b.2 ≤ a.2) := List.mem_of_mem_take hq
    rw [List.mem_insertionSort] at hq'
    obtain ⟨h1, h2⟩ := (hmem q.1 q.2).mp hq'
    exact ⟨q.1, rfl, h1, h2⟩
  · intro h
    have hnil : relevantTopics dt relevance_threshold = [] := by
      apply List.filter_eq_nil_iff.mpr
      rintro ⟨i, s⟩ ha

      have hs : s ∈ dt := by
        rw [List.mk_mem_enum_iff_getElem?] at ha
        exact List.getElem?_mem ha
      simp only [decide_eq_true_eq]
      exact not_lt.mpr (h s hs)
    simp [scoreTopics, hnil]

/-- Witness for C1 at concrete inputs: a strength above the threshold
is kept, and a strength vector entirely below it scores to the empty
sequence. -/
theorem score_filters_sorts_caps_witness :
    ((0, mkRat 1 2) ∈ relevantTopics [mkRat 1 2] relevance_threshold)
  ∧ scoreTopics [mkRat 1 20] [["aa"]] relevance_threshold defaultTopK = [] :=
  ⟨((score_filters_sorts_caps [mkRat 1 2] [["aa"]]).1 0 (mkRat 1 2)).mpr
      ⟨by decide, by decide⟩,
   (score_filters_sorts_caps [mkRat 1 20] [["aa"]]).2.2.2.2 (by decide)⟩

/-- Claim C6: for every fixed scored document and topic-strength
vector, raising the threshold of the scoring operation never increases
the number of returned topics, and lowering it never decreases that
number. -/
theorem score_threshold_monotone (dt : List ℚ) (tw : List (List String))
    (k : Nat) (t₁ t₂ : ℚ) (h : t₁ ≤ t₂) :
    (scoreTopics dt tw t₂ k).length ≤ (scoreTopics dt tw t₁ k).length := by
  unfold scoreTopics
  simp only [List.length_map, List.length_take, List.length_insertionSort]
  refine min_le_min (le_refl k) ?_
  apply List.Sublist.length_le
  apply List.monotone_filter_right
  intro a ha
  simp only [decide_eq_true_eq] at ha ⊢
  exact lt_of_le_of_lt h ha

/-- Witness for C6 at a concrete strength vector and threshold pair. -/
theorem score_threshold_monotone_witness :
    mkRat 1 10 ≤ mkRat 3 10
  ∧ (scoreTopics [mkRat 1 2] [["aa"]] (mkRat 3 10) 3).length
      ≤ (scoreTopics [mkRat 1 2] [["aa"]] (mkRat 1 10) 3).length :=
  ⟨by decide,
   score_threshold_monotone [mkRat 1 2] [["aa"]] 3 (mkRat 1 10) (mkRat 3 10)
     (by decide)⟩

/-- The source's Boolean entity test agrees with the spec's
propositional one. -/
theorem entFilter_eq (tk : SpacyToken) :
    (!(tk.entType == "PERSON" || tk.entType == "GPE"))
      = decide (¬(tk.entType = "PERSON" ∨ tk.entType = "GPE")) := by
  by_cases h1 : tk.entType = "PERSON" <;> by_cases h2 : tk.entType = "GPE" <;>
    simp [h1, h2]

/-- The source's membership test in `custom_stopwords` agrees with the
spec's union of the standard list and the extension list. -/
theorem stopFilter_eq (nlp : NLP) (t : String) :
    (!(customStopwords nlp).contains t)
      = decide (¬(t ∈ nlp.stopwords ∨ t ∈ extensionStopwords)) := by
  by_cases h : t ∈ customStopwords nlp <;>
    [skip; skip] <;>
    simp_all [customStopwords, List.mem_append, List.contains, List.elem_eq_mem]

/-- Claim C2: for every input text (a string, or a list of strings
first joined with single spaces), normalization performs exactly this
sequence: strip `(NN:NN)` timestamps, lowercase, drop tokens whose
recognized entity type is PERSON or GPE keeping all others, tokenize,
remove tokens in the union of the standard stopword list and the
fixed extension list, lemmatize each remaining token, and join with
single spaces — `preprocess_text` (from the source) coincides with
`normalize_spec` (from the spec's words). -/
theorem preprocess_matches_spec_pipeline (nlp : NLP) (input : TextInput) :
    preprocess_text nlp input = normalize_spec nlp input := by
  cases input <;>
    simp only [preprocess_text, preprocessTokens, filterLemmatize, midText,
      removeEntities, normalize_spec, joinInput, entFilter_eq, stopFilter_eq]

/-- Claim C10 (implicit): stopword membership is tested on the surface
token before lemmatization, so a token that is not itself a stopword
but whose lemma is survives filtering, and its stopword lemma appears
among the tokens of the normalized output (whose space-join is the
normalized output string). -/
theorem stopword_surface_check (nlp : NLP) (input : TextInput) (t : String)
    (hmem : t ∈ nlp.tokenize (midText nlp input))
    (hsurf : t ∉ customStopwords nlp)
    (_hlem : nlp.lemmatize t ∈ customStopwords nlp) :
    nlp.lemmatize t ∈ preprocessTokens nlp input
  ∧ preprocess_text nlp input = " ".intercalate (preprocessTokens nlp input) := by
  refine ⟨?_, rfl⟩
  unfold preprocessTokens filterLemmatize
  apply List.mem_map_of_mem
  apply List.mem_filter.mpr
  refine ⟨hmem, ?_⟩
  simp [List.contains, List.elem_eq_mem, hsurf]

/-- Witness for C10: with the concrete models, `things` is not a
stopword, its lemma `thing` is, and `thing` appears in the normalized
token list of the input `things`. -/
theorem stopword_surface_check_witness :
    "things" ∉ customStopwords nlpTest
  ∧ nlpTest.lemmatize "things" ∈ customStopwords nlpTest
  ∧ nlpTest.lemmatize "things" ∈ preprocessTokens nlpTest (.str "things") :=
  ⟨by decide, by decide,
   (stopword_surface_check nlpTest (.str "things") "things"
     (by decide) (by decide) (by decide)).1⟩

/-- Claim C7: for every input that is empty or whose tokens are all
removed by the timestamp/entity/stopword filters, the normalizer
returns the empty string rather than raising, and this empty document
is passed on into vectorization (yielding the all-zero row that the
scoring path then consumes) rather than reported as an error. -/
theorem empty_normalization_soft (nlp : NLP) (cv : CountVec)
    (ldaT : List Nat → List ℚ) (tw : List (List String)) (input : TextInput)
    (hall : ∀ t ∈ nlp.tokenize (midText nlp input), t ∈ customStopwords nlp)
    (hempty : cv.analyze "" = []) :
    preprocess_text nlp input = ""
  ∧ (cv.transform (preprocess_text nlp input)).2
      = List.replicate cv.vocab.length 0
  ∧ inferTopics cv ldaT tw nlp input
      = scoreTopics (ldaT (List.replicate cv.vocab.length 0)) tw
          relevance_threshold defaultTopK := by
  have hpre : preprocess_text nlp input = "" := by
    unfold preprocess_text preprocessTokens filterLemmatize
    have hnil : (nlp.tokenize (midText nlp input)).filter
        (fun t => !(customStopwords nlp).contains t) = [] := by
      apply List.filter_eq_nil_iff.mpr
      intro a ha
      simp [List.contains, List.elem_eq_mem, hall a ha]
    rw [hnil]
    rfl
  have hrow : (cv.transform "").2 = List.replicate cv.vocab.length 0 := by
    unfold CountVec.transform
    simp [hempty]
  refine ⟨hpre, by rw [hpre]; exact hrow, ?_⟩
  unfold inferTopics
  rw [hpre, hrow]

/-- Witness for C7: the empty transcript normalizes to the empty
string and flows through vectorization and scoring. -/
theorem empty_normalization_soft_witness :
    preprocess_text nlpEmpty (.str "") = ""
  ∧ (cvTest.transform (preprocess_text nlpEmpty (.str ""))).2
      = List.replicate cvTest.vocab.length 0
  ∧ inferTopics cvTest (fun _ => []) [] nlpEmpty (.str "")
      = scoreTopics ((fun _ => ([] : List ℚ))
          (List.replicate cvTest.vocab.length 0)) []
          relevance_threshold defaultTopK :=
  empty_normalization_soft nlpEmpty cvTest (fun _ => []) [] (.str "")
    (by intro t ht; simp [nlpEmpty] at ht) (by decide)

/-- Counterexample to Claim C5 as stated: normalization is not
idempotent for every text.  The plural `things` is not a stopword, so
it survives the surface-level stopword check and is lemmatized to
`thing`; but `thing` is in the fixed extension stopword list, so a
second normalization pass removes it: `things` normalizes to `thing`,
which normalizes to the empty string.  (The concrete models restrict
the real libraries faithfully: WordNet lemmatizes `things` to `thing`,
spaCy tags neither word as PERSON/GPE, and neither word is a gensim
stopword.) -/
theorem preprocess_not_idempotent :
    preprocess_text nlpTest (.str (preprocess_text nlpTest (.str "things")))
      ≠ preprocess_text nlpTest (.str "things") := by decide

/-- Claim C5, amended: normalization is idempotent on texts whose
normalized form is a fixed point of every stage — it contains no
timestamp pattern, is already lowercase, the entity tagger keeps all
of its tokens, the tokenizer reproduces its space-separated tokens,
and each token is outside the stopword set and a fixed point of
lemmatization.  Full idempotence fails in general: a surviving token
whose lemma lands in the stopword set (such as `things`) is removed by
a second pass. -/
theorem preprocess_idempotent_on_fixed_points (nlp : NLP) (s : String)
    (h1 : stripTimestamps s = s)
    (h2 : lowerStr s = s)
    (h3 : removeEntities nlp s = s)
    (h4 : " ".intercalate (nlp.tokenize s) = s)
    (h5 : ∀ t ∈ nlp.tokenize s, t ∉ customStopwords nlp)
    (h6 : ∀ t ∈ nlp.tokenize s, nlp.lemmatize t = t) :
    preprocess_text nlp (.str s) = s := by
  unfold preprocess_text preprocessTokens filterLemmatize midText joinInput
  rw [h1, h2, h3]
  have hf : (nlp.tokenize s).filter
      (fun t => !(customStopwords nlp).contains t) = nlp.tokenize s := by
    apply List.filter_eq_self.mpr
    intro a ha
    simp [List.contains, List.elem_eq_mem, h5 a ha]
  rw [hf]
  have hm : (nlp.tokenize s).map nlp.lemmatize = nlp.tokenize s := by
    rw [List.map_congr_left h6, List.map_id']
  rw [hm]
  exact h4

/-- Witness for the amended C5: `economy` is an already-normalized
fixed point. -/
theorem preprocess_idempotent_on_fixed_points_witness :
    preprocess_text nlpTest (.str "economy") = "economy" :=
  preprocess_idempotent_on_fixed_points nlpTest "economy"
    (by decide) (by decide) (by decide) (by decide) (by decide) (by decide)

/-- Claim C4: after `fit`, for every document whose analyzed terms are
all out-of-vocabulary, `transform` returns a single all-zero count
row, raises no error, and leaves the vectorizer (in particular its
frozen vocabulary) unchanged; unseen tokens contribute zero count. -/
theorem transform_oov_zero_row (cv : CountVec) (doc : String)
    (h : ∀ t ∈ cv.analyze doc, t ∉ cv.vocab) :
    (cv.transform doc).2 = List.replicate cv.vocab.length 0
  ∧ (cv.transform doc).1 = cv := by
  refine ⟨?_, rfl⟩
  unfold CountVec.transform
  have hz : ∀ term ∈ cv.vocab, (cv.analyze doc).count term = 0 := by
    intro term hterm
    rw [List.count_eq_zero]
    intro hmem
    exact h term hmem hterm
  calc cv.vocab.map (fun term => (cv.analyze doc).count term)
      = cv.vocab.map (fun _ => 0) := List.map_congr_left hz
    _ = List.replicate cv.vocab.length 0 := List.map_const' _ _

/-- Witness for C4: a document of two out-of-vocabulary words
transforms to the all-zero row over the frozen two-term vocabulary. -/
theorem transform_oov_zero_row_witness :
    (cvTest.transform "zzz qqq").2 = List.replicate cvTest.vocab.length 0
  ∧ (cvTest.transform "zzz qqq").1 = cvTest :=
  transform_oov_zero_row cvTest "zzz qqq" (by decide)

/-- Flattening replicated empty lists yields the empty list. -/
theorem flatten_replicate_nil {α : Type} (n : Nat) :
    (List.replicate n ([] : List α)).flatten = [] := by
  induction n with
  | zero => rfl
  | succ n ih => simp [List.replicate_succ, ih]

/-- Claim C3: training fails softly and never crashes the caller.  If
the vectorizer fit raises a value error, or returns an empty
vocabulary, `train_topic_model` returns the `(None, None)` sentinel
with a user-facing diagnostic, the two diagnostics being
distinguishable; in particular, training on a corpus where every
document normalizes to the empty string returns the sentinel with the
vectorization diagnostic, never an exception. -/
theorem train_soft_failure :
    (∀ (M : Type) (fit : List String → Except String (CountVec × List (List Nat)))
        (ldaFit : List (List Nat) → LDAConfig → M) (nlp : NLP)
        (docs : List TextInput) (n : Nat) (e : String),
      fit (docs.map (fun d => preprocess_text nlp d)) = .error e →
      train_topic_model fit ldaFit nlp docs n = (none, some (vectorizationErrorMsg e)))
  ∧ (∀ (M : Type) (fit : List String → Except String (CountVec × List (List Nat)))
        (ldaFit : List (List Nat) → LDAConfig → M) (nlp : NLP)
        (docs : List TextInput) (n : Nat) (vec : CountVec) (dtm : List (List Nat)),
      fit (docs.map (fun d => preprocess_text nlp d)) = .ok (vec, dtm) →
      vec.vocab = [] →
      train_topic_model fit ldaFit nlp docs n = (none, some emptyVocabMsg))
  ∧ (∀ e, vectorizationErrorMsg e ≠ emptyVocabMsg)
  ∧ (∀ (M : Type) (ldaFit : List (List Nat) → LDAConfig → M)
        (analyze : String → List String) (nlp : NLP)
        (docs : List TextInput) (n : Nat),
      analyze "" = [] →
      (∀ d ∈ docs, preprocess_text nlp d = "") →
      train_topic_model (cvFit analyze) ldaFit nlp docs n
        = (none, some (vectorizationErrorMsg
            "empty vocabulary; perhaps the documents only contain stop words"))) := by
  refine ⟨?_, ?_, ?_, ?_⟩
  · intro M fit ldaFit nlp docs n e h
    simp [train_topic_model, h]
  · intro M fit ldaFit nlp docs n vec dtm h hvocab
    simp [train_topic_model, h, hvocab]
  · intro e h
    have hd : "Error in vectorization: ".data ++ e.data = emptyVocabMsg.data :=
      congrArg String.data h
    have h5 : ("Error in vectorization: ".data ++ e.data)[5]?
        = emptyVocabMsg.data[5]? := by rw [hd]
    rw [List.getElem?_append_left (by decide)] at h5
    exact absurd h5 (by decide)
  · intro M ldaFit analyze nlp docs n h1 h2
    have hpre : docs.map (fun d => preprocess_text nlp d)
        = List.replicate docs.length "" := by
      rw [List.map_congr_left h2, List.map_const']
    have hfit : cvFit analyze (List.replicate docs.length "")
        = .error "empty vocabulary; perhaps the documents only contain stop words" := by
      simp [cvFit, List.map_replicate, h1, flatten_replicate_nil]
    simp [train_topic_model, hpre, hfit]

/-- Witness for C3: each failure branch at concrete inputs — an
erroring fit, a successful fit with empty vocabulary, and a
one-document corpus normalizing to the empty string. -/
theorem train_soft_failure_witness :
    train_topic_model (M := Unit) (fun _ => .error "boom") (fun _ _ => ())
        nlpEmpty [.str ""] 25
      = (none, some (vectorizationErrorMsg "boom"))
  ∧ train_topic_model (M := Unit) (fun _ => .ok (⟨analyzeTest, []⟩, []))
        (fun _ _ => ()) nlpEmpty [.str ""] 25
      = (none, some emptyVocabMsg)
  ∧ vectorizationErrorMsg "boom" ≠ emptyVocabMsg
  ∧ train_topic_model (M := Unit) (cvFit analyzeTest) (fun _ _ => ())
        nlpEmpty [.str ""] 25
      = (none, some (vectorizationErrorMsg
          "empty vocabulary; perhaps the documents only contain stop words")) :=
  ⟨train_soft_failure.1 Unit _ _ nlpEmpty [.str ""] 25 "boom" rfl,
   train_soft_failure.2.1 Unit _ _ nlpEmpty [.str ""] 25 ⟨analyzeTest, []⟩ [] rfl rfl,
   train_soft_failure.2.2.1 "boom",
   train_soft_failure.2.2.2 Unit _ analyzeTest nlpEmpty [.str ""] 25 (by decide)
     (by intro d hd; rcases List.mem_singleton.mp hd with rfl; decide)⟩

/-- The argsort index list is a permutation of the index range. -/
theorem argsortAsc_perm (v : List ℚ) :
    List.Perm (argsortAsc v) (List.range v.length) :=
  List.perm_insertionSort _ _

/-- The argsort index list is sorted by ascending weight. -/
theorem argsortAsc_sorted (v : List ℚ) :
    (argsortAsc v).Pairwise (fun i j => v.getD i 0 ≤ v.getD j 0) :=
  List.sorted_insertionSort _ _

/-- Claim C8: for every fitted topic model, vocabulary feature-name
list, and `n`, the top-words operation returns, for each topic index
in order, the `n` vocabulary terms with the highest weights in that
topic's component vector, ordered descending by weight (order among
equal weights unspecified): the output row is the image under the
feature names of an index list of length `min n (vector length)`,
with in-range distinct indices, weights descending along it, and every
selected weight at least every unselected weight. -/
theorem get_topic_words_top_n (components : List (List ℚ))
    (fnames : List String) (n t : Nat) (ht : t < components.length) :
    ∃ idxs : List Nat,
      (get_topic_words components fnames n)[t]?
        = some (idxs.map (fun i => fnames.getD i ""))
    ∧ idxs.length = min n components[t].length
    ∧ (∀ i ∈ idxs, i < components[t].length)
    ∧ idxs.Nodup
    ∧ idxs.Pairwise (fun i j => components[t].getD j 0 ≤ components[t].getD i 0)
    ∧ (∀ i ∈ idxs, ∀ j, j < components[t].length → j ∉ idxs →
        components[t].getD j 0 ≤ components[t].getD i 0) := by
  set v := components[t] with hv
  have hperm := argsortAsc_perm v
  have hrev : ((argsortAsc v).reverse).Pairwise
      (fun i j => v.getD j 0 ≤ v.getD i 0) :=
    List.pairwise_reverse.mpr (argsortAsc_sorted v)
  have hsplit := List.take_append_drop n ((argsortAsc v).reverse)
  have hmemL : ∀ j, j < v.length → j ∈ (argsortAsc v).reverse := by
    intro j hj
    rw [List.mem_reverse]
    exact hperm.mem_iff.mpr (List.mem_range.mpr hj)
  refine ⟨topIdx v n, ?_, ?_, ?_, ?_, ?_, ?_⟩
  · rw [get_topic_words, List.getElem?_map, List.getElem?_eq_getElem ht]
    rfl
  · rw [topIdx, List.length_take, List.length_reverse, argsortAsc,
      List.length_insertionSort, List.length_range]
  · intro i hi
    rw [topIdx] at hi
    have h1 : i ∈ argsortAsc v := List.mem_reverse.mp (List.mem_of_mem_take hi)
    exact List.mem_range.mp (hperm.mem_iff.mp h1)
  · have h1 : (argsortAsc v).Nodup := hperm.nodup_iff.mpr (List.nodup_range _)
    exact (List.take_sublist _ _).nodup (List.nodup_reverse.mpr h1)
  · exact hrev.sublist (List.take_sublist _ _)
  · intro i hi j hjlen hjnot
    have hcross := (List.pairwise_append.mp (hsplit.symm ▸ hrev)).2.2
    have hj2 : j ∈ (argsortAsc v).reverse.take n
        ∨ j ∈ (argsortAsc v).reverse.drop n := by
      rw [← List.mem_append, hsplit]
      exact hmemL j hjlen
    rcases hj2 with hj2 | hj2
    · exact absurd hj2 hjnot
    · exact hcross i hi j hj2

/-- Witness for C8: the top-2 selection over the single component
vector `[1, 3, 2]`. -/
theorem get_topic_words_top_n_witness :
    ∃ idxs : List Nat,
      (get_topic_words [[mkRat 1 1, mkRat 3 1, mkRat 2 1]] ["aa", "bb", "cc"] 2)[0]?
        = some (idxs.map (fun i => ["aa", "bb", "cc"].getD i ""))
    ∧ idxs.length = min 2 [mkRat 1 1, mkRat 3 1, mkRat 2 1].length
    ∧ (∀ i ∈ idxs, i < [mkRat 1 1, mkRat 3 1, mkRat 2 1].length)
    ∧ idxs.Nodup
    ∧ idxs.Pairwise (fun i j => [mkRat 1 1, mkRat 3 1, mkRat 2 1].getD j 0
        ≤ [mkRat 1 1, mkRat 3 1, mkRat 2 1].getD i 0)
    ∧ (∀ i ∈ idxs, ∀ j, j < [mkRat 1 1, mkRat 3 1, mkRat 2 1].length →
        j ∉ idxs →
        [mkRat 1 1, mkRat 3 1, mkRat 2 1].getD j 0
          ≤ [mkRat 1 1, mkRat 3 1, mkRat 2 1].getD i 0) :=
  get_topic_words_top_n [[mkRat 1 1, mkRat 3 1, mkRat 2 1]] ["aa", "bb", "cc"]
    2 0 (by decide)

/-- Claim C9: training is reproducible — the trainer fixes the topic
count (default 25), the random seed (42) and the iteration bound (10),
the LDA fit is a deterministic function of the document-term matrix
and this configuration, and hence two training runs on the same data
produce the same fitted model. -/
theorem train_reproducible :
    defaultNTopics = 25
  ∧ (∀ n, ldaConfigUsed n = ⟨n, 42, 10⟩)
  ∧ (∀ (M : Type) (fit : List String → Except String (CountVec × List (List Nat)))
        (ldaFit : List (List Nat) → LDAConfig → M) (nlp : NLP)
        (docs : List TextInput) (vec : CountVec) (dtm : List (List Nat)),
      fit (docs.map (fun d => preprocess_text nlp d)) = .ok (vec, dtm) →
      vec.vocab.length ≠ 0 →
      train_topic_model fit ldaFit nlp docs defaultNTopics
        = (some (vec, ldaFit dtm ⟨25, 42, 10⟩), none))
  ∧ (∀ (M : Type) (fit : List String → Except String (CountVec × List (List Nat)))
        (ldaFit : List (List Nat) → LDAConfig → M) (nlp : NLP)
        (docs : List TextInput) (n : Nat),
      train_topic_model fit ldaFit nlp docs n
        = train_topic_model fit ldaFit nlp docs n) := by
  refine ⟨rfl, fun _ => rfl, ?_, fun _ _ _ _ _ _ => rfl⟩
  intro M fit ldaFit nlp docs vec dtm h hvocab
  simp [train_topic_model, h, hvocab, ldaConfigUsed, defaultNTopics]

/-- Witness for C9: a successful concrete training run carries the
fixed configuration `⟨25, 42, 10⟩` into the fitted model. -/
theorem train_reproducible_witness :
    train_topic_model (M := List (List Nat) × LDAConfig)
        (fun _ => .ok (cvTest, [[1, 0]])) (fun dtm cfg => (dtm, cfg))
        nlpEmpty [.str ""] defaultNTopics
      = (some (cvTest, ([[1, 0]], ⟨25, 42, 10⟩)), none) :=
  train_reproducible.2.2.1 (List (List Nat) × LDAConfig)
    (fun _ => .ok (cvTest, [[1, 0]])) (fun dtm cfg => (dtm, cfg))
    nlpEmpty [.str ""] cvTest [[1, 0]] rfl (by decide)

end SpeechAnalysis
